import Mathlib

/-!
# Verification of the routine-cli session timer and time-accounting engine

Shallow embedding of the timer core of `routine-cli`:

* `src/time.js`        — strict RFC3339 parsing, `secondsBetween`, `isBefore`, `isAfter`
* `src/commands/routine.js` — `routineAdd`, `findRoutine`
* `src/commands/session.js` — `buildSession`, `getSession`, `sessionStart`,
  `sessionPause`, `sessionResume`, `sessionStop`

Modelling conventions:

* An *instant* is the JavaScript time value: an integer count of milliseconds
  since the Unix epoch (`Date.prototype.getTime()`).  The source stores
  timestamps as RFC3339 strings and converts them to time values at every
  comparison (`new Date(ts).getTime()`); since stored timestamp strings are
  only ever consumed through their time value, rows here store the time value
  directly, and the RFC3339 string is parsed once at the command boundary,
  exactly where the source validates it.
* The SQLite store is modelled as lists of rows kept in insertion (rowid)
  order.  `ORDER BY ts ASC` is a stable sort on the timestamp (SQLite scans
  the `(session_id, ts)` index, which yields equal timestamps in rowid
  order), and `ORDER BY ts DESC LIMIT 1` returns the last element of that
  stable ascending order.
* ULID generation (`src/id.js`) is modelled by a counter `nextUlid` carried
  by the store; each generated identifier is the entity prefix followed by
  the decimal counter value, and each generation bumps the counter.
* JavaScript exceptions (`CLIError`) become an `Except`-style result paired
  with the post-state of the store.  The source performs all validation
  before its first write in every operation, so every error branch returns
  the store unchanged.
-/

/-! ## Time primitives (src/time.js) -/

/- A JavaScript time value (`Date.prototype.getTime()`) is an integer count
of milliseconds since the Unix epoch; instants are therefore plain `Int`
values throughout. -/

/-- `secondsBetween(start, end)` from src/time.js:
`Math.floor((endDate.getTime() - startDate.getTime()) / 1000)`.
`Math.floor` rounds toward negative infinity, which on integers is `Int.fdiv`. -/
def secondsBetween (a b : Int) : Int :=
  Int.fdiv (b - a) 1000

/-- `isBefore(ts1, ts2)`: `new Date(ts1).getTime() < new Date(ts2).getTime()`. -/
def isBefore (a b : Int) : Bool :=
  decide (a < b)

/-- `isAfter(ts1, ts2)`: `new Date(ts1).getTime() > new Date(ts2).getTime()`. -/
def isAfter (a b : Int) : Bool :=
  decide (b < a)

/-! ## Strict RFC3339 parsing (src/time.js `parseRFC3339`)

The source first tests the string against

  `^\d{4}-\d{2}-\d{2}T\d{2}:\d{2}:\d{2}(?:\.\d+)?(?:Z|[+-]\d{2}:\d{2})$`

and then rejects strings whose field values denote no real date-time
(`new Date(ts)` yields an invalid date).  The matcher below transliterates
the regular expression atom by atom over the character list, collecting the
numeric fields as it goes; `validParts` models the ECMAScript date-time
string value checks (calendar-valid day, 24:00:00 only as end of day,
minutes and seconds below 60, offset within 23:59). -/

/-- Numeric value of a decimal digit character. -/
def digitVal (c : Char) : Nat :=
  c.toNat - '0'.toNat

/-- Consume exactly `n` decimal digits, accumulating their value
(the `\d{n}` regex atoms). -/
def takeDigits : Nat → Nat → List Char → Option (Nat × List Char)
  | 0, acc, cs => some (acc, cs)
  | n + 1, acc, c :: cs =>
      if c.isDigit then takeDigits n (acc * 10 + digitVal c) cs else none
  | _ + 1, _, [] => none

/-- Consume one expected literal character. -/
def expectChar (c : Char) : List Char → Option (List Char)
  | x :: xs => if x = c then some xs else none
  | [] => none

/-- Milliseconds denoted by a fractional-second digit string: the first three
digits, right-padded with zeros (further digits are ignored, as the
JavaScript engine keeps millisecond precision). -/
def msOfFracDigits (digs : List Char) : Nat :=
  ((digs ++ ['0', '0', '0']).take 3).foldl (fun a c => a * 10 + digitVal c) 0

/-- The optional `(?:\.\d+)?` fraction: a dot must be followed by at least
one digit; an absent fraction contributes zero milliseconds. -/
def parseFrac : List Char → Option (Nat × List Char)
  | '.' :: rest =>
      let digs := rest.takeWhile Char.isDigit
      if digs.isEmpty then none
      else some (msOfFracDigits digs, rest.dropWhile Char.isDigit)
  | cs => some (0, cs)

/-- The `[+-]\d{2}:\d{2}` offset tail, as signed minutes; must end the string. -/
def parseOffsetHM (cs : List Char) : Option Int := do
  let (hh, r1) ← takeDigits 2 0 cs
  let r2 ← expectChar ':' r1
  let (mm, r3) ← takeDigits 2 0 r2
  if r3.isEmpty then pure ((hh : Int) * 60 + (mm : Int)) else none

/-- The `(?:Z|[+-]\d{2}:\d{2})$` alternative: `Z` is a zero offset. -/
def parseOffset : List Char → Option Int
  | ['Z'] => some 0
  | '+' :: rest => parseOffsetHM rest
  | '-' :: rest => (parseOffsetHM rest).map (fun m => -m)
  | _ => none

/-- The numeric fields of an RFC3339 date-time string. -/
structure DateTimeParts where
  year : Nat
  month : Nat
  day : Nat
  hour : Nat
  minute : Nat
  second : Nat
  fracMs : Nat
  offsetMinutes : Int
  deriving Repr, DecidableEq

/-- Match the full RFC3339 regular expression and collect the fields. -/
def parseParts (cs : List Char) : Option DateTimeParts := do
  let (y, r1) ← takeDigits 4 0 cs
  let r2 ← expectChar '-' r1
  let (mo, r3) ← takeDigits 2 0 r2
  let r4 ← expectChar '-' r3
  let (d, r5) ← takeDigits 2 0 r4
  let r6 ← expectChar 'T' r5
  let (h, r7) ← takeDigits 2 0 r6
  let r8 ← expectChar ':' r7
  let (mi, r9) ← takeDigits 2 0 r8
  let r10 ← expectChar ':' r9
  let (s, r11) ← takeDigits 2 0 r10
  let (fr, r12) ← parseFrac r11
  let off ← parseOffset r12
  pure ⟨y, mo, d, h, mi, s, fr, off⟩

/-- Whether the string has the shape demanded by the source's RFC3339
regular expression (four-digit date, `T` separator, and an explicit offset
or the `Z` designator). -/
def rfc3339Shape (s : String) : Bool :=
  (parseParts s.data).isSome

/-- Proleptic Gregorian leap year. -/
def isLeapYear (y : Nat) : Bool :=
  (y % 4 = 0 && y % 100 ≠ 0) || y % 400 = 0

/-- Length of a month in the proleptic Gregorian calendar. -/
def daysInMonth (y m : Nat) : Nat :=
  if m = 2 then (if isLeapYear y then 29 else 28)
  else if m = 4 || m = 6 || m = 9 || m = 11 then 30
  else 31

/-- The ECMAScript value checks applied by `new Date(ts)` to a string that
already matches the date-time format: months 01-12, calendar-valid day,
hour 00-23 (24 only as exactly 24:00:00.000), minutes and seconds 00-59,
and a time-zone offset within 23:59. -/
def validParts (p : DateTimeParts) : Bool :=
  1 ≤ p.month && p.month ≤ 12 &&
  1 ≤ p.day && p.day ≤ daysInMonth p.year p.month &&
  (p.hour ≤ 23 || (p.hour = 24 && p.minute = 0 && p.second = 0 && p.fracMs = 0)) &&
  p.minute ≤ 59 && p.second ≤ 59 &&
  p.offsetMinutes.natAbs ≤ 23 * 60 + 59

/-- Days between 1970-01-01 and the given proleptic Gregorian date
(the civil-from-days inverse used by every calendar library, matching
ECMAScript `MakeDay`). -/
def daysFromCivil (y m d : Int) : Int :=
  let y2 := if m ≤ 2 then y - 1 else y
  let era := Int.fdiv y2 400
  let yoe := y2 - era * 400
  let mp := Int.emod (m + 9) 12
  let doy := Int.fdiv (153 * mp + 2) 5 + d - 1
  let doe := yoe * 365 + Int.fdiv yoe 4 - Int.fdiv yoe 100 + doy
  era * 146097 + doe - 719468

/-- The time value (ms since epoch) of parsed RFC3339 fields,
as computed by `new Date(ts).getTime()`. -/
def toMillis (p : DateTimeParts) : Int :=
  daysFromCivil (p.year : Int) (p.month : Int) (p.day : Int) * 86400000
    + (p.hour : Int) * 3600000 + (p.minute : Int) * 60000
    + (p.second : Int) * 1000 + (p.fracMs : Int)
    - p.offsetMinutes * 60000

/-- Result of `parseRFC3339`: `{valid: true, date}` or `{valid: false, error}`. -/
inductive ParseResult where
  | ok (instant : Int)
  | invalid (message : String)
  deriving Repr, DecidableEq

/-- `parseRFC3339(ts)` from src/time.js: reject the empty string, then the
regular-expression shape test, then the `new Date(ts)` validity test. -/
def parseRFC3339 (ts : String) : ParseResult :=
  if ts = "" then .invalid "timestamp is required"
  else
    match parseParts ts.data with
    | none => .invalid "invalid RFC3339 format (must include timezone offset)"
    | some p =>
        if validParts p then .ok (toMillis p)
        else .invalid "invalid date value"

/-- Whether `parseRFC3339` accepts the string. -/
def parseRFC3339Ok (ts : String) : Bool :=
  match parseRFC3339 ts with
  | .ok _ => true
  | .invalid _ => false

/-! ## Data model (SQLite schema, src/db.js) -/

/-- A row of the `routines` table. -/
structure RoutineRow where
  id : String
  name : String
  tz : String
  rule : String
  createdAt : Int
  archivedAt : Option Int
  deriving Repr, DecidableEq

/-- A row of the `sessions` table. -/
structure SessionRow where
  id : String
  routineId : String
  startTs : Int
  endTs : Option Int
  note : Option String
  createdAt : Int
  updatedAt : Int
  deletedAt : Option Int
  deriving Repr, DecidableEq

/-- Kind of a session event. -/
inductive EventType where
  | pause
  | resume
  deriving Repr, DecidableEq

/-- A row of the `session_events` table. -/
structure EventRow where
  id : String
  sessionId : String
  type : EventType
  ts : Int
  createdAt : Int
  deriving Repr, DecidableEq

/-- The store: each table as a list of rows in insertion (rowid) order,
plus the ULID source modelled as a counter. -/
structure DB where
  routines : List RoutineRow
  sessions : List SessionRow
  events : List EventRow
  tags : List (String × String)
  nextUlid : Nat
  deriving Repr, DecidableEq

/-- `generateRoutineId()`: `rtn_` followed by a fresh ULID. -/
def mkRoutineId (n : Nat) : String :=
  "rtn_" ++ toString n

/-- `generateSessionId()`: `ses_` followed by a fresh ULID. -/
def mkSessionId (n : Nat) : String :=
  "ses_" ++ toString n

/-- `generateEventId()`: `evt_` followed by a fresh ULID. -/
def mkEventId (n : Nat) : String :=
  "evt_" ++ toString n

/-- JavaScript string truthiness for optional string arguments:
`null`, `undefined` and the empty string are all falsy. -/
def truthy : Option String → Option String
  | none => none
  | some s => if s = "" then none else some s

/-! ## Typed failures (src/errors.js) -/

/-- An `AmbiguousRoutine` candidate: `{ id, name, tz }`. -/
structure Candidate where
  id : String
  name : String
  tz : String
  deriving Repr, DecidableEq

/-- The `CLIError` codes thrown by the timer core.  Structured context that
no claim inspects (for example the active-session list attached to
`ERR_SESSION_REQUIRED`) is omitted; the `AmbiguousRoutine` candidate list is
kept because resolution claims inspect it. -/
inductive Err where
  | invalidArgs
  | tsRequired
  | invalidTimeFormat
  | routineNotFound
  | ambiguousRoutine (candidates : List Candidate)
  | sessionRequired
  | sessionNotFound
  | sessionNotActive
  | invalidState
  | endBeforeStart
  deriving Repr, DecidableEq

/-- Result of an operation: the post-state of the store paired with either a
success payload or a typed failure.  The source throws before its first
write on every failure path, so error results carry the store unchanged. -/
abbrev OpResult (α : Type) := DB × Except Err α

/-! ## Routine directory (src/commands/routine.js) -/

/-- `identifier.startsWith('rtn_')`, stated over the character list so that
it evaluates inside the kernel. -/
def strStartsWith (s pre : String) : Bool :=
  decide (s.data.take pre.data.length = pre.data)

/-- `findRoutine(db, identifier)`: exact-id lookup for identifiers carrying
the `rtn_` prefix, otherwise a name lookup with an explicit ambiguity
signal.  Neither branch filters on `archived_at`. -/
def findRoutine (db : DB) (identifier : String) : Except Err RoutineRow :=
  if strStartsWith identifier "rtn_" then
    match db.routines.find? (fun r => decide (r.id = identifier)) with
    | some row => .ok row
    | none => .error .routineNotFound
  else
    match db.routines.filter (fun r => decide (r.name = identifier)) with
    | [] => .error .routineNotFound
    | [r] => .ok r
    | rows => .error (.ambiguousRoutine (rows.map (fun r => ⟨r.id, r.name, r.tz⟩)))

/-- The body of `routineAdd` after timestamp validation: insert a routine
row with a fresh identifier and return it.  `tz` falls back to the system
time zone (an ambient read passed in explicitly here); no name-pattern or
uniqueness check is performed. -/
def routineAddAt (db : DB) (name rule : String) (tz? : Option String)
    (systemTz : String) (ts : Int) : OpResult RoutineRow :=
  let id := mkRoutineId db.nextUlid
  let tz := (truthy tz?).getD systemTz
  let row : RoutineRow :=
    { id := id, name := name, tz := tz, rule := rule
      createdAt := ts, archivedAt := none }
  ({ db with routines := db.routines ++ [row], nextUlid := db.nextUlid + 1 },
   .ok row)

/-- `routineAdd(db, args)`: required-argument checks (`--name`, `--rule`,
`--ts`), strict timestamp validation, then the insert. -/
def routineAdd (db : DB) (name? rule? ts? tz? : Option String)
    (systemTz : String) : OpResult RoutineRow :=
  match truthy name? with
  | none => (db, .error .invalidArgs)
  | some name =>
    match truthy rule? with
    | none => (db, .error .invalidArgs)
    | some rule =>
      match truthy ts? with
      | none => (db, .error .tsRequired)
      | some ts =>
        match parseRFC3339 ts with
        | .invalid _ => (db, .error .invalidTimeFormat)
        | .ok tsv => routineAddAt db name rule tz? systemTz tsv

/-! ## Event ordering (`ORDER BY ts ASC`, stable in rowid order) -/

/-- Insert an event into a ts-ascending list, before the first strictly later
event and after all earlier-or-equal ones (stable insertion). -/
def insertByTs (e : EventRow) : List EventRow → List EventRow
  | [] => [e]
  | x :: xs => if e.ts ≤ x.ts then e :: x :: xs else x :: insertByTs e xs

/-- Stable sort of events by timestamp: the row order produced by
`ORDER BY ts ASC` over rows kept in insertion order. -/
def sortByTs : List EventRow → List EventRow
  | [] => []
  | e :: l => insertByTs e (sortByTs l)

/-- The events of one session in `ORDER BY ts ASC` order. -/
def sessionEvents (db : DB) (sid : String) : List EventRow :=
  sortByTs (db.events.filter (fun e => decide (e.sessionId = sid)))

/-- The most recent event of a session (`ORDER BY ts DESC LIMIT 1`): the last
element of the stable ascending order. -/
def lastEventOf (db : DB) (sid : String) : Option EventRow :=
  (sessionEvents db sid).getLast?

/-- `lastEvent && lastEvent.type === 'pause'`: whether the session's most
recent event is an (unmatched) pause. -/
def lastIsPause (db : DB) (sid : String) : Bool :=
  match lastEventOf db sid with
  | some e => decide (e.type = .pause)
  | none => false

/-! ## The time-accounting function (`buildSession`, src/commands/session.js) -/

/-- One entry of the `pauses` array: `{ start, end }` with `end = null`
while the pause is open. -/
structure PauseInterval where
  start : Int
  endTs : Option Int
  deriving Repr, DecidableEq

/-- One step of the `for (const evt of events)` loop of `buildSession`:
a pause event (re)opens the current pause, a resume event closes and
appends it; a resume without an open pause is ignored. -/
def pausesStep (acc : List PauseInterval × Option Int) (e : EventRow) :
    List PauseInterval × Option Int :=
  match e.type with
  | .pause => (acc.1, some e.ts)
  | .resume =>
      match acc.2 with
      | some s => (acc.1 ++ [⟨s, some e.ts⟩], none)
      | none => acc

/-- After the loop: `if (currentPause) pauses.push(currentPause)`. -/
def finalizePauses (acc : List PauseInterval × Option Int) :
    List PauseInterval :=
  match acc.2 with
  | some s => acc.1 ++ [⟨s, none⟩]
  | none => acc.1

/-- The derived session status. -/
inductive SessionStatus where
  | running
  | paused
  | stopped
  deriving Repr, DecidableEq

/-- Ascending insertion for the `ORDER BY tag ASC` of the tag query. -/
def insertTagAsc (t : String) : List String → List String
  | [] => [t]
  | x :: xs => if t ≤ x then t :: x :: xs else x :: insertTagAsc t xs

/-- Sort tags ascending (`ORDER BY tag ASC`). -/
def sortTagsAsc : List String → List String
  | [] => []
  | t :: l => insertTagAsc t (sortTagsAsc l)

/-- The Session object returned by `buildSession` (its nested `computed`
object is flattened into the last four fields). -/
structure SessionView where
  id : String
  routineId : String
  routineName : String
  start : Int
  endTs : Option Int
  status : SessionStatus
  pauses : List PauseInterval
  note : Option String
  tags : List String
  createdAt : Int
  updatedAt : Int
  deletedAt : Option Int
  asOf : Int
  durationSeconds : Int
  pausedSeconds : Int
  activeSeconds : Int
  deriving Repr, DecidableEq

/-- The `pausedSeconds` accumulation loop of `buildSession`: clip each
pause interval to `[start_ts, effectiveEnd]` (an open pause ends at
`effectiveEnd`) and sum the strictly positive clipped intervals. -/
def pausedSecondsOf (startTs effectiveEnd : Int)
    (pauses : List PauseInterval) : Int :=
  pauses.foldl
    (fun acc p =>
      let pauseEnd := p.endTs.getD effectiveEnd
      let pStart := if isAfter p.start startTs then p.start else startTs
      let pEnd := if isBefore pauseEnd effectiveEnd then pauseEnd else effectiveEnd
      if isAfter pEnd pStart then acc + secondsBetween pStart pEnd else acc) 0

/-- `buildSession(db, row, asOf)`: fold the ordered event log into pause
intervals, derive the status, and compute the duration breakdown, clipping
each pause interval to `[start_ts, effectiveEnd]` and counting only
strictly positive clipped intervals. -/
def buildSession (db : DB) (row : SessionRow) (asOf : Int) : SessionView :=
  let routineName :=
    ((db.routines.find? (fun r => decide (r.id = row.routineId))).map
      RoutineRow.name).getD ""
  let events := sessionEvents db row.id
  let acc := events.foldl pausesStep ([], none)
  let pauses := finalizePauses acc
  let status : SessionStatus :=
    if row.endTs.isSome then .stopped
    else if acc.2.isSome then .paused
    else .running
  let tags :=
    sortTagsAsc ((db.tags.filter (fun t => decide (t.1 = row.id))).map Prod.snd)
  let effectiveEnd := row.endTs.getD asOf
  let durationSeconds := secondsBetween row.startTs effectiveEnd
  let pausedSeconds := pausedSecondsOf row.startTs effectiveEnd pauses
  let activeSeconds := max 0 (durationSeconds - pausedSeconds)
  { id := row.id, routineId := row.routineId, routineName := routineName
    start := row.startTs, endTs := row.endTs, status := status, pauses := pauses
    note := row.note, tags := tags, createdAt := row.createdAt
    updatedAt := row.updatedAt, deletedAt := row.deletedAt, asOf := asOf
    durationSeconds := durationSeconds, pausedSeconds := pausedSeconds
    activeSeconds := activeSeconds }

/-! ## Session state machine (src/commands/session.js) -/

/-- `getSession(db, sessionId)`:
`SELECT * FROM sessions WHERE id = ? AND deleted_at IS NULL`. -/
def getSession (db : DB) (sid : String) : Option SessionRow :=
  db.sessions.find? (fun r => decide (r.id = sid ∧ r.deletedAt = none))

/-- `UPDATE sessions SET ... WHERE id = ?`: rewrite the matching rows. -/
def updateSessionRows (sessions : List SessionRow) (sid : String)
    (g : SessionRow → SessionRow) : List SessionRow :=
  sessions.map (fun r => if r.id = sid then g r else r)

/-- Re-fetch the session after a write and return its computed view (the
source calls `getSession` again and passes the row to `buildSession`; the
row is always found again since writes preserve `id` and `deleted_at`). -/
def refetch (db : DB) (sid : String) (asOf : Int) : Except Err SessionView :=
  match getSession db sid with
  | some row => .ok (buildSession db row asOf)
  | none => .error .sessionNotFound

/-- Append a pause or resume event and touch the session's `updated_at`
(the two writes shared by `sessionPause` and `sessionResume`). -/
def appendEventAndTouch (db : DB) (sid : String) (ty : EventType)
    (ts : Int) : DB :=
  { db with
    events := db.events ++
      [{ id := mkEventId db.nextUlid, sessionId := sid, type := ty
         ts := ts, createdAt := ts }]
    sessions := updateSessionRows db.sessions sid (fun r => { r with updatedAt := ts })
    nextUlid := db.nextUlid + 1 }

/-- The body of `sessionPause` after argument validation: not-found and
not-active checks, reject when the most recent event is already a pause,
otherwise append a pause event at `ts`. -/
def sessionPauseAt (db : DB) (sid : String) (ts : Int) : OpResult SessionView :=
  match getSession db sid with
  | none => (db, .error .sessionNotFound)
  | some row =>
    if row.endTs.isSome then (db, .error .sessionNotActive)
    else if lastIsPause db sid then (db, .error .invalidState)
    else
      let db1 := appendEventAndTouch db sid .pause ts
      (db1, refetch db1 sid ts)

/-- The body of `sessionResume` after argument validation: not-found and
not-active checks, reject unless the most recent event is an unmatched
pause, otherwise append a resume event at `ts`. -/
def sessionResumeAt (db : DB) (sid : String) (ts : Int) : OpResult SessionView :=
  match getSession db sid with
  | none => (db, .error .sessionNotFound)
  | some row =>
    if row.endTs.isSome then (db, .error .sessionNotActive)
    else if lastIsPause db sid then
      let db1 := appendEventAndTouch db sid .resume ts
      (db1, refetch db1 sid ts)
    else (db, .error .invalidState)

/-- `COALESCE(args.note || null, note)` of the stop update. -/
def coalesceNote (note? : Option String) (old : Option String) : Option String :=
  match truthy note? with
  | some n => some n
  | none => old

/-- `INSERT OR IGNORE INTO session_tags`: append unless already present. -/
def insertTagIgnore (tags : List (String × String)) (sid tag : String) :
    List (String × String) :=
  if (sid, tag) ∈ tags then tags else tags ++ [(sid, tag)]

/-- Insert each provided tag with `INSERT OR IGNORE`. -/
def insertTagsIgnore (tags : List (String × String)) (sid : String)
    (tagArgs : List String) : List (String × String) :=
  tagArgs.foldl (fun acc t => insertTagIgnore acc sid t) tags

/-- The body of `sessionStop` after argument validation: not-found,
not-active and end-before-start checks; if the session is paused, append an
implicit resume event at the stop instant; then set `end_ts`, merge the
note, touch `updated_at`, and add the provided tags. -/
def sessionStopAt (db : DB) (sid : String) (ts : Int)
    (note? : Option String) (tagArgs : List String) : OpResult SessionView :=
  match getSession db sid with
  | none => (db, .error .sessionNotFound)
  | some row =>
    if row.endTs.isSome then (db, .error .sessionNotActive)
    else if isBefore ts row.startTs then (db, .error .endBeforeStart)
    else
      let db1 :=
        if lastIsPause db sid then
          { db with
            events := db.events ++
              [{ id := mkEventId db.nextUlid, sessionId := sid
                 type := .resume, ts := ts, createdAt := ts }]
            nextUlid := db.nextUlid + 1 }
        else db
      let db2 := { db1 with
        sessions := updateSessionRows db1.sessions sid
          (fun r => { r with endTs := some ts
                             note := coalesceNote note? r.note
                             updatedAt := ts }) }
      let db3 := { db2 with tags := insertTagsIgnore db2.tags sid tagArgs }
      (db3, refetch db3 sid ts)

/-- The body of `sessionStart` after argument validation: resolve the
routine (propagating its failures), insert a fresh session row starting at
`ts` with no end, insert the provided tags, and return the computed view as
of `ts`.  No check against other open sessions is made.  (The source
inserts tags with a plain `INSERT`; a duplicate tag in the argument list
would violate the `(session_id, tag)` primary key and crash, so theorems
about `sessionStart` assume the tag list has no duplicates.) -/
def sessionStartAt (db : DB) (routineIdent : String) (ts : Int)
    (note? : Option String) (tagArgs : List String) : OpResult SessionView :=
  match findRoutine db routineIdent with
  | .error e => (db, .error e)
  | .ok routine =>
    let sid := mkSessionId db.nextUlid
    let row : SessionRow :=
      { id := sid, routineId := routine.id, startTs := ts, endTs := none
        note := truthy note?, createdAt := ts, updatedAt := ts, deletedAt := none }
    let db1 := { db with
      sessions := db.sessions ++ [row]
      tags := db.tags ++ tagArgs.map (fun t => (sid, t))
      nextUlid := db.nextUlid + 1 }
    (db1, refetch db1 sid ts)

/-- `sessionStart(db, args)`: `--routine` and `--ts` required, strict
timestamp validation, then the insert. -/
def sessionStart (db : DB) (routine? ts? note? : Option String)
    (tagArgs : List String) : OpResult SessionView :=
  match truthy routine? with
  | none => (db, .error .invalidArgs)
  | some ident =>
    match truthy ts? with
    | none => (db, .error .tsRequired)
    | some ts =>
      match parseRFC3339 ts with
      | .invalid _ => (db, .error .invalidTimeFormat)
      | .ok tsv => sessionStartAt db ident tsv note? tagArgs

/-- `sessionPause(db, args)`: `--session` and `--ts` required, strict
timestamp validation, then the state-machine body. -/
def sessionPause (db : DB) (session? ts? : Option String) : OpResult SessionView :=
  match truthy session? with
  | none => (db, .error .sessionRequired)
  | some sid =>
    match truthy ts? with
    | none => (db, .error .tsRequired)
    | some ts =>
      match parseRFC3339 ts with
      | .invalid _ => (db, .error .invalidTimeFormat)
      | .ok tsv => sessionPauseAt db sid tsv

/-- `sessionResume(db, args)`: `--session` and `--ts` required, strict
timestamp validation, then the state-machine body. -/
def sessionResume (db : DB) (session? ts? : Option String) : OpResult SessionView :=
  match truthy session? with
  | none => (db, .error .sessionRequired)
  | some sid =>
    match truthy ts? with
    | none => (db, .error .tsRequired)
    | some ts =>
      match parseRFC3339 ts with
      | .invalid _ => (db, .error .invalidTimeFormat)
      | .ok tsv => sessionResumeAt db sid tsv

/-- `sessionStop(db, args)`: `--session` and `--ts` required, strict
timestamp validation, then the state-machine body. -/
def sessionStop (db : DB) (session? ts? note? : Option String)
    (tagArgs : List String) : OpResult SessionView :=
  match truthy session? with
  | none => (db, .error .sessionRequired)
  | some sid =>
    match truthy ts? with
    | none => (db, .error .tsRequired)
    | some ts =>
      match parseRFC3339 ts with
      | .invalid _ => (db, .error .invalidTimeFormat)
      | .ok tsv => sessionStopAt db sid tsv note? tagArgs

/-! ## Verification-side measures

Quantities used only by the proofs (not part of the embedded program). -/

/-- Clipped millisecond length of one pause interval against session start
`S` and effective end `E`. -/
def clipLen (S E : Int) (p : PauseInterval) : Int :=
  max 0 (min (p.endTs.getD E) E - max p.start S)

/-- Contribution of one pause interval to the `pausedSecondsOf` fold. -/
def pauseContrib (S E : Int) (p : PauseInterval) : Int :=
  let pauseEnd := p.endTs.getD E
  let pStart := if isAfter p.start S then p.start else S
  let pEnd := if isBefore pauseEnd E then pauseEnd else E
  if isAfter pEnd pStart then secondsBetween pStart pEnd else 0

/-- Sum of clipped millisecond lengths. -/
def sumClip (S E : Int) (l : List PauseInterval) : Int :=
  (l.map (clipLen S E)).sum

/-- The effective lower bound carried by the interval-building fold: the
open pause start when one is open, the ambient bound otherwise. -/
def pauseBase : Option Int → Int → Int
  | some c, _ => c
  | none, lo => lo

/-! ## Concrete fixtures used by witnesses and counterexamples -/

/-- Modelled from the spec: the "safe-name pattern" constraining display
names to a filesystem/log-safe character set.  The only such pattern in the
repository is `^[A-Za-z0-9][A-Za-z0-9._-]*$` (the runner's name rule); it is
stated here purely as the spec-side predicate to compare `routineAdd`
against — the timer's `routineAdd` itself contains no pattern check. -/
def safeNamePattern (s : String) : Bool :=
  match s.data with
  | [] => false
  | c :: cs =>
      c.isAlphanum && cs.all (fun x => x.isAlphanum || x = '.' || x = '_' || x = '-')

/-- A store with one routine, one paused session `ses_1` (open pause at
10 ms) and one running session `ses_2` started at 100 ms. -/
def rowPaused : SessionRow := ⟨"ses_1", "rtn_0", 0, none, none, 0, 0, none⟩

/-- The running session of `dbStates`. -/
def rowRunning : SessionRow := ⟨"ses_2", "rtn_0", 100, none, none, 100, 100, none⟩

/-- Fixture: one routine, one paused and one running session. -/
def dbStates : DB :=
  ⟨[⟨"rtn_0", "Work", "UTC", "daily>=30m", 0, none⟩],
   [rowPaused, rowRunning],
   [⟨"evt_3", "ses_1", .pause, 10, 10⟩],
   [], 4⟩

/-- Fixture session for the stop-closes-pause claims: started at 0 ms. -/
def rowC2 : SessionRow := ⟨"ses_9", "rtn_0", 0, none, none, 0, 0, none⟩

/-- Fixture: a session paused at 100 ms. -/
def dbC2 : DB :=
  ⟨[⟨"rtn_0", "Work", "UTC", "daily>=30m", 0, none⟩],
   [rowC2],
   [⟨"evt_1", "ses_9", .pause, 100, 100⟩],
   [], 5⟩

/-- Fixture session started at 1000 ms, for the end-before-start claim. -/
def rowC5 : SessionRow := ⟨"ses_5", "rtn_0", 1000, none, none, 1000, 1000, none⟩

/-- Fixture store holding `rowC5`. -/
def dbC5 : DB := ⟨[], [rowC5], [], [], 7⟩

/-- Fixture: two routines named "A", one of them archived. -/
def dbC4 : DB :=
  ⟨[⟨"rtn_1", "A", "UTC", "r", 0, none⟩,
    ⟨"rtn_2", "A", "Asia/Seoul", "r", 0, some 5⟩],
   [], [], [], 3⟩

/-- Fixture: one routine named "A", two named "B", none named "C". -/
def dbC4w : DB :=
  ⟨[⟨"rtn_1", "A", "UTC", "r", 0, none⟩,
    ⟨"rtn_2", "B", "UTC", "r", 0, none⟩,
    ⟨"rtn_3", "B", "UTC", "r", 0, none⟩],
   [], [], [], 4⟩

/-- The empty store. -/
def dbEmpty : DB := ⟨[], [], [], [], 0⟩


/-- Session fixture for the C1 witness: start at 0 ms, one pause interval
from 600000 ms to 900000 ms, still open at query time. -/
def rowC1 : SessionRow :=
  { id := "ses_1", routineId := "rtn_0", startTs := 0, endTs := none
    note := none, createdAt := 0, updatedAt := 0, deletedAt := none }

/-- Store fixture for the C1 witness. -/
def dbC1 : DB :=
  { routines := []
    sessions := [rowC1]
    events := [⟨"evt_2", "ses_1", .pause, 600000, 600000⟩,
               ⟨"evt_3", "ses_1", .resume, 900000, 900000⟩]
    tags := []
    nextUlid := 4 }

/-! ## Lemmas about the stable event sort -/

theorem mem_insertByTs (e : EventRow) (l : List EventRow) (x : EventRow) :
    x ∈ insertByTs e l ↔ x = e ∨ x ∈ l := by
  induction l with
  | nil => simp [insertByTs]
  | cons y ys ih =>
      simp only [insertByTs]
      by_cases hle : e.ts ≤ y.ts
      · simp [hle, List.mem_cons]
      · simp only [hle, if_false, List.mem_cons, ih]
        tauto

theorem mem_sortByTs (l : List EventRow) (x : EventRow) :
    x ∈ sortByTs l ↔ x ∈ l := by
  induction l with
  | nil => simp [sortByTs]
  | cons y ys ih => simp [sortByTs, mem_insertByTs, ih]

theorem insertByTs_pairwise (e : EventRow) (l : List EventRow)
    (h : l.Pairwise (fun a b => a.ts ≤ b.ts)) :
    (insertByTs e l).Pairwise (fun a b => a.ts ≤ b.ts) := by
  induction l with
  | nil => simp [insertByTs]
  | cons y ys ih =>
      rcases List.pairwise_cons.mp h with ⟨hy, hys⟩
      simp only [insertByTs]
      by_cases hle : e.ts ≤ y.ts
      · simp only [hle, if_true]
        refine List.pairwise_cons.mpr ⟨?_, h⟩
        intro a ha
        rcases List.mem_cons.mp ha with rfl | ha
        · exact hle
        · exact le_trans hle (hy a ha)
      · simp only [hle, if_false]
        refine List.pairwise_cons.mpr ⟨?_, ih hys⟩
        intro a ha
        rcases (mem_insertByTs e ys a).mp ha with rfl | ha
        · exact le_of_lt (lt_of_not_le hle)
        · exact hy a ha

theorem sortByTs_pairwise (l : List EventRow) :
    (sortByTs l).Pairwise (fun a b => a.ts ≤ b.ts) := by
  induction l with
  | nil => simp [sortByTs]
  | cons y ys ih => exact insertByTs_pairwise y (sortByTs ys) ih

theorem insertByTs_append_big (x e : EventRow) (l : List EventRow)
    (hx : x.ts ≤ e.ts) :
    insertByTs x (l ++ [e]) = insertByTs x l ++ [e] := by
  induction l with
  | nil => simp [insertByTs, hx]
  | cons y ys ih =>
      simp only [List.cons_append, insertByTs]
      by_cases hle : x.ts ≤ y.ts
      · simp [hle]
      · simp [hle, ih]

/-- Appending an event whose timestamp is at least every timestamp in the
list sorts to the end (the stable sort keeps it after equal timestamps). -/
theorem sortByTs_append_big (l : List EventRow) (e : EventRow)
    (h : ∀ x ∈ l, x.ts ≤ e.ts) :
    sortByTs (l ++ [e]) = sortByTs l ++ [e] := by
  induction l with
  | nil => simp [sortByTs, insertByTs]
  | cons y ys ih =>
      simp only [List.cons_append, sortByTs, List.append_eq]
      rw [ih (fun x hx => h x (List.mem_cons_of_mem _ hx)),
        insertByTs_append_big y e (sortByTs ys) (h y (List.mem_cons_self y ys))]

/-- In a ts-sorted list, the last element carries the maximal timestamp. -/
theorem pairwise_last_max (l : List EventRow) (e : EventRow)
    (hs : l.Pairwise (fun a b => a.ts ≤ b.ts)) (hl : l.getLast? = some e) :
    ∀ x ∈ l, x.ts ≤ e.ts := by
  rcases List.getLast?_eq_some_iff.mp hl with ⟨ys, rfl⟩
  intro x hx
  rcases List.mem_append.mp hx with hx | hx
  · have := (List.pairwise_append.mp hs).2.2
    exact this x hx e (List.mem_cons_self e [])
  · rcases List.mem_singleton.mp hx with rfl
    exact le_refl _

/-! ## Lemmas about the time accounting -/

theorem pauseContrib_eq (S E : Int) (p : PauseInterval) :
    pauseContrib S E p =
      if max p.start S < min (p.endTs.getD E) E
      then Int.fdiv (min (p.endTs.getD E) E - max p.start S) 1000
      else 0 := by
  have hmax : ∀ a b : Int, max a b = if b < a then a else b := by
    intro a b
    split <;> omega
  have hmin : ∀ a b : Int, min a b = if a < b then a else b := by
    intro a b
    split <;> omega
  simp only [pauseContrib, isAfter, isBefore, secondsBetween,
    decide_eq_true_eq, hmax, hmin]

theorem pauseContrib_nonneg (S E : Int) (p : PauseInterval) :
    0 ≤ pauseContrib S E p := by
  rw [pauseContrib_eq]
  split
  · rename_i h
    rw [Int.fdiv_eq_ediv _ (by norm_num)]
    exact Int.ediv_nonneg (by omega) (by norm_num)
  · exact le_refl 0

theorem pauseContrib_mul_le_clipLen (S E : Int) (p : PauseInterval) :
    1000 * pauseContrib S E p ≤ clipLen S E p := by
  rw [pauseContrib_eq]
  unfold clipLen
  split
  · rename_i h
    rw [Int.fdiv_eq_ediv _ (by norm_num)]
    have h1 := Int.ediv_mul_le (min (p.endTs.getD E) E - max p.start S)
      (show (1000 : Int) ≠ 0 by norm_num)
    omega
  · omega

theorem pausedSecondsOf_foldl (S E : Int) :
    ∀ (l : List PauseInterval) (a : Int),
      l.foldl
        (fun acc p =>
          let pauseEnd := p.endTs.getD E
          let pStart := if isAfter p.start S then p.start else S
          let pEnd := if isBefore pauseEnd E then pauseEnd else E
          if isAfter pEnd pStart then acc + secondsBetween pStart pEnd else acc) a
        = a + (l.map (pauseContrib S E)).sum
  | [], a => by simp
  | p :: l, a => by
      simp only [List.foldl_cons, List.map_cons, List.sum_cons]
      rw [pausedSecondsOf_foldl S E l]
      simp only [pauseContrib]
      split <;> split <;> split <;> ring

theorem pausedSecondsOf_eq_sum (S E : Int) (ps : List PauseInterval) :
    pausedSecondsOf S E ps = (ps.map (pauseContrib S E)).sum := by
  unfold pausedSecondsOf
  rw [pausedSecondsOf_foldl S E ps 0, zero_add]

theorem sumClip_fold_le (S E : Int) (l : List EventRow) :
    ∀ (ps : List PauseInterval) (cur : Option Int) (lo : Int),
      l.Pairwise (fun a b => a.ts ≤ b.ts) →
      (∀ x ∈ l, lo ≤ x.ts) →
      (∀ c, cur = some c → c ≤ lo) →
      sumClip S E (finalizePauses (l.foldl pausesStep (ps, cur)))
        ≤ sumClip S E ps + max 0 (E - max (pauseBase cur lo) S) := by
  induction l with
  | nil =>
      intro ps cur lo _ _ hcur
      cases cur with
      | none =>
          simp only [List.foldl_nil, finalizePauses, pauseBase]
          omega
      | some c =>
          simp only [List.foldl_nil, finalizePauses, sumClip, List.map_append,
            List.sum_append, List.map_cons, List.map_nil, List.sum_cons,
            List.sum_nil, clipLen, Option.getD, pauseBase, min_self]
          omega
  | cons e l ih =>
      intro ps cur lo hpw hlo hcur
      rcases List.pairwise_cons.mp hpw with ⟨he, hl⟩
      have hmem : lo ≤ e.ts := hlo e (List.mem_cons_self e l)
      simp only [List.foldl_cons]
      cases hty : e.type with
      | pause =>
          have hstep : pausesStep (ps, cur) e = (ps, some e.ts) := by
            simp [pausesStep, hty]
          rw [hstep]
          have hb := ih ps (some e.ts) e.ts hl he
            (fun c h => by injection h with h; omega)
          refine le_trans hb ?_
          have hble : pauseBase cur lo ≤ e.ts := by
            cases cur with
            | none => exact hmem
            | some c => exact le_trans (hcur c rfl) hmem
          simp only [pauseBase] at *
          omega
      | resume =>
          cases cur with
          | none =>
              have hstep : pausesStep (ps, none) e = (ps, none) := by
                simp [pausesStep, hty]
              rw [hstep]
              have hb := ih ps none e.ts hl he (fun c h => by cases h)
              refine le_trans hb ?_
              simp only [pauseBase]
              omega
          | some c =>
              have hstep : pausesStep (ps, some c) e =
                  (ps ++ [⟨c, some e.ts⟩], none) := by
                simp [pausesStep, hty]
              rw [hstep]
              have hb := ih (ps ++ [⟨c, some e.ts⟩]) none e.ts hl he
                (fun c h => by cases h)
              refine le_trans hb ?_
              have hc : c ≤ lo := hcur c rfl
              simp only [sumClip, List.map_append, List.sum_append,
                List.map_cons, List.map_nil, List.sum_cons, List.sum_nil,
                clipLen, Option.getD, pauseBase]
              omega

/-- Over ts-sorted events, the accumulated paused seconds are nonnegative
and their millisecond value never exceeds the accounting window. -/
theorem pausedSecondsOf_bounds (S E : Int) (evs : List EventRow)
    (hs : evs.Pairwise (fun a b => a.ts ≤ b.ts)) (hSE : S ≤ E) :
    0 ≤ pausedSecondsOf S E (finalizePauses (evs.foldl pausesStep ([], none)))
    ∧ 1000 * pausedSecondsOf S E (finalizePauses (evs.foldl pausesStep ([], none)))
        ≤ E - S := by
  set ps := finalizePauses (evs.foldl pausesStep ([], none)) with hps
  rw [pausedSecondsOf_eq_sum]
  constructor
  · refine List.sum_nonneg ?_
    intro x hx
    rcases List.mem_map.mp hx with ⟨p, _, rfl⟩
    exact pauseContrib_nonneg S E p
  · have h1 : (1000 : Int) * (ps.map (pauseContrib S E)).sum
        = (ps.map (fun p => 1000 * pauseContrib S E p)).sum := by
      rw [List.sum_map_mul_left]
    have h2 : (ps.map (fun p => 1000 * pauseContrib S E p)).sum
        ≤ (ps.map (clipLen S E)).sum :=
      List.sum_le_sum (fun p _ => pauseContrib_mul_le_clipLen S E p)
    have h3 : sumClip S E ps ≤ E - S := by
      cases evs with
      | nil =>
          rw [hps]
          simp [sumClip, finalizePauses]
          omega
      | cons e l =>
          have hlo : ∀ x ∈ e :: l, e.ts ≤ x.ts := by
            intro x hx
            rcases List.mem_cons.mp hx with rfl | hx
            · exact le_refl _
            · exact (List.pairwise_cons.mp hs).1 x hx
          have := sumClip_fold_le S E (e :: l) [] none e.ts hs hlo
            (fun c h => by cases h)
          simp only [sumClip, List.map_nil, List.sum_nil, pauseBase] at this
          rw [hps]
          simp only [sumClip]
          omega
    simp only [sumClip] at h3
    omega

/-! ## Claim C1 -/

/-- **C1.** For every session and every query instant `asOf` at or after the
session's start (with the session's end, when set, not preceding its start,
per the data-model invariant), the view computed by the time-accounting
function satisfies `activeSeconds + pausedSeconds = durationSeconds`, where
`durationSeconds = secondsBetween(start, effectiveEnd)` and `effectiveEnd`
is the session's end instant if set and otherwise `asOf`. -/
theorem buildSession_active_add_paused_eq_duration (db : DB) (row : SessionRow)
    (asOf : Int) (hAsOf : row.startTs ≤ asOf)
    (hEnd : ∀ e, row.endTs = some e → row.startTs ≤ e) :
    (buildSession db row asOf).activeSeconds
        + (buildSession db row asOf).pausedSeconds
      = (buildSession db row asOf).durationSeconds
    ∧ (buildSession db row asOf).durationSeconds
      = secondsBetween row.startTs (row.endTs.getD asOf) := by
  have hSE : row.startTs ≤ row.endTs.getD asOf := by
    cases h : row.endTs with
    | none => simpa using hAsOf
    | some e => simpa using hEnd e h
  have hb := pausedSecondsOf_bounds row.startTs (row.endTs.getD asOf)
    (sessionEvents db row.id)
    (by unfold sessionEvents; exact sortByTs_pairwise _) hSE
  simp only [buildSession]
  refine ⟨?_, trivial⟩
  have hple : pausedSecondsOf row.startTs (row.endTs.getD asOf)
      (finalizePauses (List.foldl pausesStep ([], none) (sessionEvents db row.id)))
      ≤ (row.endTs.getD asOf - row.startTs) / 1000 := by
    rw [Int.le_ediv_iff_mul_le (by norm_num : (0:Int) < 1000)]
    have h2 := hb.2
    omega
  have h1 := hb.1
  rw [secondsBetween, Int.fdiv_eq_ediv _ (by norm_num)]
  omega

/-- Witness for C1 at a concrete store and query instant. -/
theorem buildSession_active_add_paused_eq_duration_witness :
    rowC1.startTs ≤ 1800000
    ∧ ((buildSession dbC1 rowC1 1800000).activeSeconds
          + (buildSession dbC1 rowC1 1800000).pausedSeconds
        = (buildSession dbC1 rowC1 1800000).durationSeconds
      ∧ (buildSession dbC1 rowC1 1800000).durationSeconds
        = secondsBetween rowC1.startTs (rowC1.endTs.getD 1800000)) :=
  ⟨by decide,
   buildSession_active_add_paused_eq_duration dbC1 rowC1 1800000 (by decide)
     (by intro e h; simp [rowC1] at h)⟩

/-! ## Lemmas about store lookups and updates -/

/-- A row found by `getSession` matches the identifier and is not deleted. -/
theorem getSession_props (db : DB) (sid : String) (row : SessionRow)
    (h : getSession db sid = some row) : row.id = sid ∧ row.deletedAt = none := by
  have := List.find?_some h
  simpa using this

/-- An `UPDATE ... WHERE id = ?` whose rewrite preserves `id` and
`deleted_at` updates exactly the row that `getSession` returns. -/
theorem find?_updateSessionRows (s : List SessionRow) (sid : String)
    (g : SessionRow → SessionRow)
    (hid : ∀ r, (g r).id = r.id) (hdel : ∀ r, (g r).deletedAt = r.deletedAt) :
    (updateSessionRows s sid g).find?
        (fun r => decide (r.id = sid ∧ r.deletedAt = none))
      = (s.find? (fun r => decide (r.id = sid ∧ r.deletedAt = none))).map g := by
  induction s with
  | nil => simp [updateSessionRows]
  | cons r t ih =>
      simp only [updateSessionRows, List.map_cons] at *
      by_cases hr : r.id = sid
      · by_cases hd : r.deletedAt = none
        · rw [if_pos hr,
            List.find?_cons_of_pos _ (by simp [hid, hdel, hr, hd]),
            List.find?_cons_of_pos _ (by simp [hr, hd])]
          rfl
        · rw [if_pos hr,
            List.find?_cons_of_neg _ (by simp [hid, hdel, hd]),
            List.find?_cons_of_neg _ (by simp [hd])]
          exact ih
      · rw [if_neg hr,
          List.find?_cons_of_neg _ (by simp [hr]),
          List.find?_cons_of_neg _ (by simp [hr])]
        exact ih

/-- An `UPDATE ... WHERE id = ?` whose rewrite preserves `id` leaves every
other session's `getSession` result untouched. -/
theorem find?_updateSessionRows_ne (s : List SessionRow) (sid sid' : String)
    (g : SessionRow → SessionRow) (hid : ∀ r, (g r).id = r.id)
    (hne : sid' ≠ sid) :
    (updateSessionRows s sid g).find?
        (fun r => decide (r.id = sid' ∧ r.deletedAt = none))
      = s.find? (fun r => decide (r.id = sid' ∧ r.deletedAt = none)) := by
  induction s with
  | nil => simp [updateSessionRows]
  | cons r t ih =>
      simp only [updateSessionRows, List.map_cons]
      by_cases hr : r.id = sid
      · have hne' : ¬(g r).id = sid' := by
          rw [hid, hr]
          exact Ne.symm hne
        have hrne : ¬r.id = sid' := by
          rw [hr]
          exact Ne.symm hne
        rw [if_pos hr,
          List.find?_cons_of_neg _ (by simp [hne']),
          List.find?_cons_of_neg _ (by simp [hrne])]
        exact ih
      · rw [if_neg hr]
        by_cases hp : r.id = sid' ∧ r.deletedAt = none
        · rw [List.find?_cons_of_pos _ (by simp [hp.1, hp.2]),
            List.find?_cons_of_pos _ (by simp [hp.1, hp.2])]
        · rw [List.find?_cons_of_neg _ (by simpa using hp),
            List.find?_cons_of_neg _ (by simpa using hp)]
          exact ih

/-- `INSERT OR IGNORE` of tags for one session leaves every other
session's tag slice untouched. -/
theorem filter_insertTagsIgnore_ne (tagArgs : List String)
    (tags : List (String × String)) (sid sid' : String) (h : sid' ≠ sid) :
    (insertTagsIgnore tags sid tagArgs).filter (fun t => decide (t.1 = sid'))
      = tags.filter (fun t => decide (t.1 = sid')) := by
  induction tagArgs generalizing tags with
  | nil => rfl
  | cons t ts ih =>
      simp only [insertTagsIgnore, List.foldl_cons] at *
      rw [ih]
      unfold insertTagIgnore
      split
      · rfl
      · simp [List.filter_append, Ne.symm h]

/-- `buildSession` depends on the store only through the routine table, the
session's event slice and its tag slice. -/
theorem buildSession_congr (db db' : DB) (row : SessionRow) (asOf : Int)
    (hr : db'.routines = db.routines)
    (he : db'.events.filter (fun e => decide (e.sessionId = row.id))
        = db.events.filter (fun e => decide (e.sessionId = row.id)))
    (ht : db'.tags.filter (fun t => decide (t.1 = row.id))
        = db.tags.filter (fun t => decide (t.1 = row.id))) :
    buildSession db' row asOf = buildSession db row asOf := by
  simp only [buildSession, sessionEvents, hr, he, ht]

/-- Once the event log (in sorted order) ends with a pause event, the
interval-building fold finishes with that pause still open. -/
theorem foldl_snd_of_last_pause (l : List EventRow) (ev : EventRow)
    (hl : l.getLast? = some ev) (hty : ev.type = .pause) (acc : List PauseInterval × Option Int) :
    (l.foldl pausesStep acc).2 = some ev.ts := by
  rcases List.getLast?_eq_some_iff.mp hl with ⟨ys, rfl⟩
  rw [List.foldl_append]
  simp [pausesStep, hty]

/-! ## Claim C3 -/

/-- **C3.** For every live (non-deleted, not-yet-stopped) session, `pause`
fails with `InvalidState` when the session's most recent event is already a
pause, and `resume` fails with `InvalidState` when the most recent event is
not an unmatched pause (including when there is no event at all); in both
cases no event is appended and the store is returned unchanged — the
operations are never silently idempotent. -/
theorem pause_paused_and_resume_running_invalid_state (db : DB) (sid : String)
    (ts : Int) (row : SessionRow)
    (hrow : getSession db sid = some row) (hlive : row.endTs = none) :
    (lastIsPause db sid = true →
      sessionPauseAt db sid ts = (db, .error .invalidState))
    ∧ (lastIsPause db sid = false →
      sessionResumeAt db sid ts = (db, .error .invalidState)) := by
  constructor
  · intro h
    unfold sessionPauseAt
    rw [hrow]
    simp [hlive, h]
  · intro h
    unfold sessionResumeAt
    rw [hrow]
    simp [hlive, h]

/-- Witness for C3: pausing the paused `ses_1` and resuming the running
`ses_2` of the fixture store both fail with `InvalidState`. -/
theorem pause_paused_and_resume_running_invalid_state_witness :
    (getSession dbStates "ses_1" = some rowPaused ∧ rowPaused.endTs = none
      ∧ lastIsPause dbStates "ses_1" = true
      ∧ sessionPauseAt dbStates "ses_1" 20 = (dbStates, .error .invalidState))
    ∧ (getSession dbStates "ses_2" = some rowRunning ∧ rowRunning.endTs = none
      ∧ lastIsPause dbStates "ses_2" = false
      ∧ sessionResumeAt dbStates "ses_2" 20 = (dbStates, .error .invalidState)) :=
  ⟨⟨by decide, by decide, by decide,
    (pause_paused_and_resume_running_invalid_state dbStates "ses_1" 20 rowPaused
      (by decide) (by decide)).1 (by decide)⟩,
   ⟨by decide, by decide, by decide,
    (pause_paused_and_resume_running_invalid_state dbStates "ses_2" 20 rowRunning
      (by decide) (by decide)).2 (by decide)⟩⟩

/-! ## Claim C5 -/

/-- **C5.** For every live session, `stop` with an instant strictly before
the session's start fails with `EndBeforeStart` and returns the store
unchanged: no event is appended and the session's end instant, note, tags
and update instant are untouched. -/
theorem sessionStop_end_before_start_rejected (db : DB) (sid : String)
    (ts : Int) (note? : Option String) (tagArgs : List String)
    (row : SessionRow) (hrow : getSession db sid = some row)
    (hlive : row.endTs = none) (hbefore : ts < row.startTs) :
    sessionStopAt db sid ts note? tagArgs = (db, .error .endBeforeStart) := by
  unfold sessionStopAt
  rw [hrow]
  simp [hlive, isBefore, hbefore]

/-- Witness for C5: stopping the fixture session (started at 1000 ms) at
instant 0 fails with `EndBeforeStart` and leaves the store unchanged. -/
theorem sessionStop_end_before_start_rejected_witness :
    getSession dbC5 "ses_5" = some rowC5 ∧ rowC5.endTs = none
    ∧ (0 : Int) < rowC5.startTs
    ∧ sessionStopAt dbC5 "ses_5" 0 (some "n") ["t"] = (dbC5, .error .endBeforeStart) :=
  ⟨by decide, by decide, by decide,
   sessionStop_end_before_start_rejected dbC5 "ses_5" 0 (some "n") ["t"] rowC5
     (by decide) (by decide) (by decide)⟩

/-! ## Claim C7 -/

/-- **C7 counterexample.** The claim says `secondsBetween` truncates toward
zero, so a difference of −1.5 s would yield −1; the code computes
`Math.floor((b − a) / 1000)`, which yields −2 on the pair
(a, b) = (1500 ms, 0 ms). -/
theorem secondsBetween_floor_counterexample :
    secondsBetween 1500 0 = -2 ∧ ¬ secondsBetween 1500 0 = -1 := by
  decide

/-- **C7 amended.** `secondsBetween(a, b)` is the signed number of seconds
`b - a` rounded toward negative infinity (floor) at sub-second granularity:
it is the unique integer `s` with `1000 * s ≤ b - a < 1000 * s + 1000` (so a
difference of −1.5 s yields −2, not −1). -/
theorem secondsBetween_floor_characterization (a b : Int) :
    1000 * secondsBetween a b ≤ b - a
    ∧ b - a < 1000 * secondsBetween a b + 1000 := by
  simp only [secondsBetween]
  rw [show Int.fdiv (b - a) 1000 = (b - a) / 1000 from
    Int.fdiv_eq_ediv _ (by norm_num)]
  omega

/-! ## Claim C10 -/

/-- Appending an event and touching `updated_at` keeps the session visible
to `getSession`, with only `updated_at` rewritten. -/
theorem getSession_appendEventAndTouch (db : DB) (sid : String)
    (ty : EventType) (ts : Int) :
    getSession (appendEventAndTouch db sid ty ts) sid
      = (getSession db sid).map (fun r => { r with updatedAt := ts }) := by
  unfold getSession appendEventAndTouch
  exact find?_updateSessionRows db.sessions sid _ (fun r => rfl) (fun r => rfl)

/-- **C10.** For every live session, `pause` and `resume` validate only the
kind of the session's most recent event and never compare the supplied
instant against the session's start instant or against recorded event
instants: for an arbitrary instant `ts` — including one earlier than the
start or earlier than every recorded event — `pause` succeeds whenever the
most recent event is not a pause, `resume` succeeds whenever it is, and the
new event is appended at exactly `ts`. -/
theorem pause_resume_no_instant_comparison (db : DB) (sid : String) (ts : Int)
    (row : SessionRow) (hrow : getSession db sid = some row)
    (hlive : row.endTs = none) :
    (lastIsPause db sid = false →
      (sessionPauseAt db sid ts).1.events
          = db.events ++ [⟨mkEventId db.nextUlid, sid, .pause, ts, ts⟩]
        ∧ (sessionPauseAt db sid ts).2.isOk = true)
    ∧ (lastIsPause db sid = true →
      (sessionResumeAt db sid ts).1.events
          = db.events ++ [⟨mkEventId db.nextUlid, sid, .resume, ts, ts⟩]
        ∧ (sessionResumeAt db sid ts).2.isOk = true) := by
  constructor
  · intro h
    unfold sessionPauseAt
    rw [hrow]
    simp only [hlive, Option.isSome_none, Bool.false_eq_true, if_false, h]
    constructor
    · simp [appendEventAndTouch]
    · unfold refetch
      rw [getSession_appendEventAndTouch, hrow]
      rfl
  · intro h
    unfold sessionResumeAt
    rw [hrow]
    simp only [hlive, Option.isSome_none, Bool.false_eq_true, if_false, h, if_true]
    constructor
    · simp [appendEventAndTouch]
    · unfold refetch
      rw [getSession_appendEventAndTouch, hrow]
      rfl

/-- Witness for C10: pausing the running `ses_2` (started at 100 ms) at
instant 5 — before its start — succeeds and appends the event at 5; resuming
the paused `ses_1` (open pause at 10 ms) at instant 3 — before the recorded
pause — succeeds and appends the event at 3. -/
theorem pause_resume_no_instant_comparison_witness :
    ((5 : Int) < rowRunning.startTs ∧ lastIsPause dbStates "ses_2" = false
      ∧ (sessionPauseAt dbStates "ses_2" 5).1.events
          = dbStates.events ++ [⟨mkEventId dbStates.nextUlid, "ses_2", .pause, 5, 5⟩]
      ∧ (sessionPauseAt dbStates "ses_2" 5).2.isOk = true)
    ∧ ((3 : Int) < 10 ∧ lastIsPause dbStates "ses_1" = true
      ∧ (sessionResumeAt dbStates "ses_1" 3).1.events
          = dbStates.events ++ [⟨mkEventId dbStates.nextUlid, "ses_1", .resume, 3, 3⟩]
      ∧ (sessionResumeAt dbStates "ses_1" 3).2.isOk = true) :=
  ⟨⟨by decide, by decide,
    (pause_resume_no_instant_comparison dbStates "ses_2" 5 rowRunning
      (by decide) (by decide)).1 (by decide)⟩,
   ⟨by decide, by decide,
    (pause_resume_no_instant_comparison dbStates "ses_1" 3 rowPaused
      (by decide) (by decide)).2 (by decide)⟩⟩

/-! ## Claim C4 -/

/-- **C4 counterexample.** With exactly one non-archived routine named "A"
(plus an archived routine of the same name), the claim says the name lookup
succeeds with the non-archived match; `findRoutine` instead fails with
`AmbiguousRoutine`, because its name query never filters on `archived_at`
and lists the archived routine among the candidates. -/
theorem findRoutine_archived_not_filtered_counterexample :
    (dbC4.routines.filter
        (fun r => decide (r.name = "A" ∧ r.archivedAt = none))).length = 1
    ∧ findRoutine dbC4 "A"
      = .error (.ambiguousRoutine
          [⟨"rtn_1", "A", "UTC"⟩, ⟨"rtn_2", "A", "Asia/Seoul"⟩]) :=
  ⟨by decide, by rfl⟩

/-- **C4 amended.** For every identifier without the `rtn_` prefix,
`resolve` performs a name lookup over **all** routines regardless of
archival status: zero matches fails with `RoutineNotFound`; exactly one
matching routine (archived or not) succeeds and returns it; two or more
matches fail with `AmbiguousRoutine` carrying the full candidate list
(id, name, timezone), never an arbitrary pick. -/
theorem findRoutine_name_lookup_trichotomy (db : DB) (ident : String)
    (hpre : strStartsWith ident "rtn_" = false) :
    (db.routines.filter (fun r => decide (r.name = ident)) = [] →
        findRoutine db ident = .error .routineNotFound)
    ∧ (∀ row, db.routines.filter (fun r => decide (r.name = ident)) = [row] →
        findRoutine db ident = .ok row)
    ∧ (∀ r1 r2 rest,
        db.routines.filter (fun r => decide (r.name = ident)) = r1 :: r2 :: rest →
        findRoutine db ident
          = .error (.ambiguousRoutine
              ((r1 :: r2 :: rest).map (fun r => ⟨r.id, r.name, r.tz⟩)))) := by
  unfold findRoutine
  simp only [hpre, Bool.false_eq_true, if_false]
  refine ⟨?_, ?_, ?_⟩
  · intro h
    rw [h]
  · intro row h
    rw [h]
  · intro r1 r2 rest h
    rw [h]

/-- Witness for C4: on the fixture directory (one routine named "A", two
named "B", none named "C") the three lookup outcomes are realized. -/
theorem findRoutine_name_lookup_trichotomy_witness :
    findRoutine dbC4w "C" = .error .routineNotFound
    ∧ findRoutine dbC4w "A" = .ok ⟨"rtn_1", "A", "UTC", "r", 0, none⟩
    ∧ findRoutine dbC4w "B"
      = .error (.ambiguousRoutine [⟨"rtn_2", "B", "UTC"⟩, ⟨"rtn_3", "B", "UTC"⟩]) :=
  ⟨(findRoutine_name_lookup_trichotomy dbC4w "C" (by decide)).1 (by decide),
   (findRoutine_name_lookup_trichotomy dbC4w "A" (by decide)).2.1
     ⟨"rtn_1", "A", "UTC", "r", 0, none⟩ (by decide),
   (findRoutine_name_lookup_trichotomy dbC4w "B" (by decide)).2.2
     ⟨"rtn_2", "B", "UTC", "r", 0, none⟩ ⟨"rtn_3", "B", "UTC", "r", 0, none⟩ []
     (by decide)⟩

/-! ## Claim C8 -/

/-- **C8 counterexample.** "Deep Work" does not match the safe-name pattern
(it contains a space), yet `routineAdd` accepts it and creates the routine:
the claim's "whenever the name does not match the safe-name pattern the
operation fails" is false — the operation checks only that the name and
rule are non-empty.  (The repository's own README and tests create the
routine "Deep Work".) -/
theorem routineAdd_no_safe_name_check_counterexample :
    safeNamePattern "Deep Work" = false
    ∧ (routineAdd dbEmpty (some "Deep Work") (some "daily>=30m")
        (some "2026-01-31T09:00:00+09:00") none "UTC").2.map RoutineRow.name
      = .ok "Deep Work"
    ∧ (routineAdd dbEmpty (some "Deep Work") (some "daily>=30m")
        (some "2026-01-31T09:00:00+09:00") none "UTC").1.routines.length = 1 :=
  ⟨by decide, by rfl, by decide⟩

/-- **C8 amended.** `add(name, timezone, rule, at)` requires a non-empty
name and a non-empty rule string (no safe-name pattern is enforced);
whenever these and a valid instant are supplied it creates exactly one new
routine with a fresh identifier (fresh by the ULID-uniqueness assumption,
carried here as the hypothesis that the generated identifier is unused) and
returns it. -/
theorem routineAdd_nonempty_name_rule_succeeds (db : DB) (name rule ts : String)
    (tz? : Option String) (systemTz : String) (inst : Int)
    (hname : name ≠ "") (hrule : rule ≠ "")
    (hts : parseRFC3339 ts = .ok inst) (htsne : ts ≠ "")
    (hfresh : ∀ r ∈ db.routines, r.id ≠ mkRoutineId db.nextUlid) :
    (routineAdd db (some name) (some rule) (some ts) tz? systemTz).2
        = .ok ⟨mkRoutineId db.nextUlid, name, (truthy tz?).getD systemTz,
               rule, inst, none⟩
    ∧ (routineAdd db (some name) (some rule) (some ts) tz? systemTz).1.routines
        = db.routines
          ++ [⟨mkRoutineId db.nextUlid, name, (truthy tz?).getD systemTz,
               rule, inst, none⟩]
    ∧ ∀ r ∈ db.routines,
        r.id ≠ (⟨mkRoutineId db.nextUlid, name, (truthy tz?).getD systemTz,
                 rule, inst, none⟩ : RoutineRow).id := by
  have h1 : truthy (some name) = some name := by simp [truthy, hname]
  have h2 : truthy (some rule) = some rule := by simp [truthy, hrule]
  have h3 : truthy (some ts) = some ts := by simp [truthy, htsne]
  unfold routineAdd
  rw [h1, h2, h3]
  dsimp only
  rw [hts]
  unfold routineAddAt
  exact ⟨rfl, rfl, fun r hr => hfresh r hr⟩

/-- Witness for C8 at a concrete store and arguments. -/
theorem routineAdd_nonempty_name_rule_succeeds_witness :
    (routineAdd dbEmpty (some "My Routine") (some "daily>=30m")
        (some "2026-01-31T09:00:00Z") none "UTC").2
      = .ok ⟨mkRoutineId dbEmpty.nextUlid, "My Routine",
             (truthy (none : Option String)).getD "UTC", "daily>=30m",
             1769850000000, none⟩ :=
  (routineAdd_nonempty_name_rule_succeeds dbEmpty "My Routine" "daily>=30m"
    "2026-01-31T09:00:00Z" none "UTC" 1769850000000
    (by decide) (by decide) (by rfl) (by decide) (by simp [dbEmpty])).1

/-! ## Claim C2 -/

/-- **C2 counterexample.** A live session whose only (hence most recent)
event is a pause at 100 ms, stopped at instant 50 (not before the session's
start 0): the stop succeeds, appends the implicit resume at 50 and sets the
end to 50, but the implicit resume sorts *before* the pause, so the view's
trailing pause interval stays open (`end = null`) instead of being closed
at the session's end — the claim's consequence fails when the stop instant
precedes the open pause's instant. -/
theorem sessionStop_paused_open_pause_counterexample :
    getSession dbC2 "ses_9" = some rowC2
    ∧ rowC2.endTs = none
    ∧ lastEventOf dbC2 "ses_9" = some ⟨"evt_1", "ses_9", .pause, 100, 100⟩
    ∧ rowC2.startTs ≤ 50
    ∧ (sessionStopAt dbC2 "ses_9" 50 none []).2.map (fun v => (v.endTs, v.pauses))
      = .ok (some 50, [⟨100, none⟩]) :=
  ⟨by decide, by decide, by rfl, by decide, by rfl⟩

/-- **C2 amended.** For every live session whose most recent event is an
unmatched pause, `stop(sessionId, at)` with `at` not before the session's
start **and not before the open pause's instant** first appends an implicit
resume event at instant `at` and then sets the session's end instant to
`at`, so in the resulting view the closed trailing pause interval's end
equals the session's end.  (When `at` precedes the open pause's instant the
resume still gets appended and the end still gets set, but the pause stays
open in the view, as the counterexample shows.) -/
theorem sessionStop_paused_closes_trailing_pause (db : DB) (sid : String)
    (ts : Int) (note? : Option String) (tagArgs : List String)
    (row : SessionRow) (ev : EventRow)
    (hrow : getSession db sid = some row) (hlive : row.endTs = none)
    (hlast : lastEventOf db sid = some ev) (hty : ev.type = .pause)
    (hstart : row.startTs ≤ ts) (hev : ev.ts ≤ ts) :
    (sessionStopAt db sid ts note? tagArgs).1.events
        = db.events ++ [⟨mkEventId db.nextUlid, sid, .resume, ts, ts⟩]
    ∧ ∃ v, (sessionStopAt db sid ts note? tagArgs).2 = .ok v
        ∧ v.endTs = some ts
        ∧ v.pauses.getLast? = some ⟨ev.ts, some ts⟩ := by
  have hsid : row.id = sid := (getSession_props db sid row hrow).1
  have hlp : lastIsPause db sid = true := by
    simp [lastIsPause, hlast, hty]
  have hnb : isBefore ts row.startTs = false := by
    simp only [isBefore, decide_eq_false_iff_not]
    omega
  have hres : sessionStopAt db sid ts note? tagArgs
      = ({ db with
            events := db.events ++ [⟨mkEventId db.nextUlid, sid, .resume, ts, ts⟩]
            sessions := updateSessionRows db.sessions sid
              (fun r => { r with endTs := some ts
                                 note := coalesceNote note? r.note
                                 updatedAt := ts })
            tags := insertTagsIgnore db.tags sid tagArgs
            nextUlid := db.nextUlid + 1 },
         refetch
           { db with
             events := db.events ++ [⟨mkEventId db.nextUlid, sid, .resume, ts, ts⟩]
             sessions := updateSessionRows db.sessions sid
               (fun r => { r with endTs := some ts
                                  note := coalesceNote note? r.note
                                  updatedAt := ts })
             tags := insertTagsIgnore db.tags sid tagArgs
             nextUlid := db.nextUlid + 1 } sid ts) := by
    unfold sessionStopAt
    rw [hrow]
    simp only [hlive, Option.isSome_none, Bool.false_eq_true, if_false, hnb,
      hlp, if_true]
  rw [hres]
  refine ⟨rfl, ?_⟩
  have hget : getSession
      { db with
        events := db.events ++ [⟨mkEventId db.nextUlid, sid, .resume, ts, ts⟩]
        sessions := updateSessionRows db.sessions sid
          (fun r => { r with endTs := some ts
                             note := coalesceNote note? r.note
                             updatedAt := ts })
        tags := insertTagsIgnore db.tags sid tagArgs
        nextUlid := db.nextUlid + 1 } sid
      = some { row with endTs := some ts
                        note := coalesceNote note? row.note
                        updatedAt := ts } := by
    unfold getSession at hrow ⊢
    rw [show ({ db with
        events := db.events ++ [⟨mkEventId db.nextUlid, sid, .resume, ts, ts⟩]
        sessions := updateSessionRows db.sessions sid
          (fun r => { r with endTs := some ts
                             note := coalesceNote note? r.note
                             updatedAt := ts })
        tags := insertTagsIgnore db.tags sid tagArgs
        nextUlid := db.nextUlid + 1 } : DB).sessions
      = updateSessionRows db.sessions sid
          (fun r => { r with endTs := some ts
                             note := coalesceNote note? r.note
                             updatedAt := ts }) from rfl]
    rw [find?_updateSessionRows db.sessions sid
        (fun r => { r with endTs := some ts
                           note := coalesceNote note? r.note
                           updatedAt := ts })
        (fun r => rfl) (fun r => rfl),
      hrow]
    rfl
  unfold refetch
  rw [hget]
  refine ⟨_, rfl, rfl, ?_⟩
  -- the trailing pause of the recomputed view
  have hbound : ∀ x ∈ db.events.filter (fun e => decide (e.sessionId = sid)),
      x.ts ≤ ts := by
    intro x hx
    have hx' : x ∈ sessionEvents db sid := by
      unfold sessionEvents
      exact (mem_sortByTs _ _).mpr hx
    have hmax := pairwise_last_max (sessionEvents db sid) ev
      (by unfold sessionEvents; exact sortByTs_pairwise _) hlast x hx'
    omega
  have hflt : (db.events ++ [(⟨mkEventId db.nextUlid, sid, .resume, ts, ts⟩ : EventRow)]).filter
        (fun e => decide (e.sessionId = sid))
      = db.events.filter (fun e => decide (e.sessionId = sid))
        ++ [(⟨mkEventId db.nextUlid, sid, .resume, ts, ts⟩ : EventRow)] := by
    rw [List.filter_append]
    simp
  have hsea : sessionEvents
      { db with
        events := db.events ++ [⟨mkEventId db.nextUlid, sid, .resume, ts, ts⟩]
        sessions := updateSessionRows db.sessions sid
          (fun r => { r with endTs := some ts
                             note := coalesceNote note? r.note
                             updatedAt := ts })
        tags := insertTagsIgnore db.tags sid tagArgs
        nextUlid := db.nextUlid + 1 } sid
      = sessionEvents db sid ++ [(⟨mkEventId db.nextUlid, sid, .resume, ts, ts⟩ : EventRow)] := by
    unfold sessionEvents
    rw [show ({ db with
        events := db.events ++ [⟨mkEventId db.nextUlid, sid, .resume, ts, ts⟩]
        sessions := updateSessionRows db.sessions sid
          (fun r => { r with endTs := some ts
                             note := coalesceNote note? r.note
                             updatedAt := ts })
        tags := insertTagsIgnore db.tags sid tagArgs
        nextUlid := db.nextUlid + 1 } : DB).events
      = db.events ++ [(⟨mkEventId db.nextUlid, sid, .resume, ts, ts⟩ : EventRow)] from rfl]
    rw [hflt]
    exact sortByTs_append_big _ _ hbound
  have hsnd := foldl_snd_of_last_pause (sessionEvents db sid) ev hlast hty ([], none)
  simp only [buildSession]
  rw [show ({ row with endTs := some ts
                       note := coalesceNote note? row.note
                       updatedAt := ts } : SessionRow).id = sid from hsid]
  rw [hsea, List.foldl_append]
  rcases hacc : (sessionEvents db sid).foldl pausesStep ([], none) with ⟨ps0, cur⟩
  rw [hacc] at hsnd
  simp only at hsnd
  subst hsnd
  simp [pausesStep, finalizePauses]

/-- Witness for C2 (amended): stopping the fixture session (open pause at
100 ms) at instant 150 appends the implicit resume at 150, sets the end to
150, and the view's trailing pause interval is closed at 150. -/
theorem sessionStop_paused_closes_trailing_pause_witness :
    getSession dbC2 "ses_9" = some rowC2
    ∧ rowC2.endTs = none
    ∧ lastEventOf dbC2 "ses_9" = some ⟨"evt_1", "ses_9", .pause, 100, 100⟩
    ∧ rowC2.startTs ≤ 150 ∧ (100 : Int) ≤ 150
    ∧ ((sessionStopAt dbC2 "ses_9" 150 none []).1.events
        = dbC2.events ++ [⟨mkEventId dbC2.nextUlid, "ses_9", .resume, 150, 150⟩]
      ∧ ∃ v, (sessionStopAt dbC2 "ses_9" 150 none []).2 = .ok v
          ∧ v.endTs = some 150
          ∧ v.pauses.getLast? = some ⟨100, some 150⟩) :=
  ⟨by decide, by decide, by rfl, by decide, by decide,
   sessionStop_paused_closes_trailing_pause dbC2 "ses_9" 150 none [] rowC2
     ⟨"evt_1", "ses_9", .pause, 100, 100⟩
     (by decide) (by decide) (by rfl) (by rfl) (by decide) (by decide)⟩

/-! ## Claim C9 -/

/-- `sessionStop` touches only the target session's row, its events and its
tags: every other session's row lookup, event slice and tag slice are
unchanged, whichever branch the operation takes. -/
theorem stop_frame_components (db : DB) (sid sid' : String) (hne : sid' ≠ sid)
    (ts : Int) (note? : Option String) (tagArgs : List String) :
    (sessionStopAt db sid ts note? tagArgs).1.routines = db.routines
    ∧ (sessionStopAt db sid ts note? tagArgs).1.events.filter
        (fun e => decide (e.sessionId = sid'))
      = db.events.filter (fun e => decide (e.sessionId = sid'))
    ∧ (sessionStopAt db sid ts note? tagArgs).1.tags.filter
        (fun t => decide (t.1 = sid'))
      = db.tags.filter (fun t => decide (t.1 = sid'))
    ∧ getSession (sessionStopAt db sid ts note? tagArgs).1 sid'
      = getSession db sid' := by
  unfold sessionStopAt
  cases hgs : getSession db sid with
  | none => exact ⟨rfl, rfl, rfl, rfl⟩
  | some row =>
      dsimp only
      by_cases he : row.endTs.isSome = true
      · rw [if_pos he]
        exact ⟨rfl, rfl, rfl, rfl⟩
      · rw [if_neg he]
        by_cases hb : isBefore ts row.startTs = true
        · rw [if_pos hb]
          exact ⟨rfl, rfl, rfl, rfl⟩
        · rw [if_neg hb]
          by_cases hp : lastIsPause db sid = true
          · rw [if_pos hp]
            dsimp only
            refine ⟨rfl, ?_, ?_, ?_⟩
            · rw [List.filter_append]
              simp [Ne.symm hne]
            · exact filter_insertTagsIgnore_ne tagArgs db.tags sid sid' hne
            · unfold getSession
              dsimp only
              exact find?_updateSessionRows_ne db.sessions sid sid' _
                (fun r => rfl) hne
          · rw [if_neg hp]
            dsimp only
            refine ⟨rfl, rfl, ?_, ?_⟩
            · exact filter_insertTagsIgnore_ne tagArgs db.tags sid sid' hne
            · unfold getSession
              dsimp only
              exact find?_updateSessionRows_ne db.sessions sid sid' _
                (fun r => rfl) hne

/-- **C9.** Stopping one session leaves every other session's stored row,
events, derived status and duration accounting unchanged (its `getSession`
row and its full `buildSession` view at any `asOf` are equal before and
after), and `sessionStart` accepts a new session for a routine without any
restriction on already-open sessions: it succeeds whenever the routine
resolves (with a duplicate-free tag list, which the source requires on pain
of a primary-key violation). -/
theorem sessionStop_frame_and_multi_open_start (db : DB) (sid sid' : String)
    (ts : Int) (note? : Option String) (tagArgs : List String) (asOf : Int)
    (hne : sid' ≠ sid) :
    (getSession (sessionStopAt db sid ts note? tagArgs).1 sid'
        = getSession db sid'
      ∧ (getSession db sid').map
          (fun r => buildSession (sessionStopAt db sid ts note? tagArgs).1 r asOf)
        = (getSession db sid').map (fun r => buildSession db r asOf))
    ∧ (∀ (ident : String) (note2? : Option String) (tags2 : List String),
        (findRoutine db ident).isOk = true → tags2.Nodup →
        (sessionStartAt db ident ts note2? tags2).2.isOk = true) := by
  obtain ⟨f1, f2, f3, f4⟩ := stop_frame_components db sid sid' hne ts note? tagArgs
  refine ⟨⟨f4, ?_⟩, ?_⟩
  · cases hr : getSession db sid' with
    | none => rfl
    | some r =>
        have hrid : r.id = sid' := (getSession_props db sid' r hr).1
        show some (buildSession (sessionStopAt db sid ts note? tagArgs).1 r asOf)
          = some (buildSession db r asOf)
        rw [buildSession_congr db (sessionStopAt db sid ts note? tagArgs).1 r asOf
          f1 (by rw [hrid]; exact f2) (by rw [hrid]; exact f3)]
  · intro ident note2? tags2 hfind _
    unfold sessionStartAt
    cases hf : findRoutine db ident with
    | error e => rw [hf] at hfind; simp [Except.isOk, Except.toBool] at hfind
    | ok routine =>
        simp only
        unfold refetch
        have hg : (getSession
            { db with
              sessions := db.sessions ++
                [{ id := mkSessionId db.nextUlid, routineId := routine.id
                   startTs := ts, endTs := none, note := truthy note2?
                   createdAt := ts, updatedAt := ts, deletedAt := none }]
              tags := db.tags ++ tags2.map (fun t => (mkSessionId db.nextUlid, t))
              nextUlid := db.nextUlid + 1 } (mkSessionId db.nextUlid)).isSome
            = true := by
          unfold getSession
          rw [show ({ db with
              sessions := db.sessions ++
                [{ id := mkSessionId db.nextUlid, routineId := routine.id
                   startTs := ts, endTs := none, note := truthy note2?
                   createdAt := ts, updatedAt := ts, deletedAt := none }]
              tags := db.tags ++ tags2.map (fun t => (mkSessionId db.nextUlid, t))
              nextUlid := db.nextUlid + 1 } : DB).sessions
            = db.sessions ++
                [({ id := mkSessionId db.nextUlid, routineId := routine.id
                    startTs := ts, endTs := none, note := truthy note2?
                    createdAt := ts, updatedAt := ts, deletedAt := none } : SessionRow)]
            from rfl]
          rw [List.find?_append]
          cases h : List.find?
              (fun r => decide (r.id = mkSessionId db.nextUlid ∧ r.deletedAt = none))
              db.sessions with
          | none => simp [Option.or]
          | some r => simp [Option.or]
        rcases Option.isSome_iff_exists.mp hg with ⟨r, hr⟩
        rw [hr]
        rfl

/-- Witness for C9: stopping `ses_1` in the fixture store leaves `ses_2`'s
row and full computed view (at asOf 200) unchanged, and a further start
against the routine succeeds while sessions are already open. -/
theorem sessionStop_frame_and_multi_open_start_witness :
    ("ses_2" : String) ≠ "ses_1"
    ∧ (getSession (sessionStopAt dbStates "ses_1" 100 none ["t"]).1 "ses_2"
        = getSession dbStates "ses_2"
      ∧ (getSession dbStates "ses_2").map
          (fun r => buildSession (sessionStopAt dbStates "ses_1" 100 none ["t"]).1 r 200)
        = (getSession dbStates "ses_2").map (fun r => buildSession dbStates r 200))
    ∧ ((findRoutine dbStates "Work").isOk = true
      ∧ (sessionStartAt dbStates "Work" 100 none []).2.isOk = true) :=
  ⟨by decide,
   (sessionStop_frame_and_multi_open_start dbStates "ses_1" "ses_2" 100 none
     ["t"] 200 (by decide)).1,
   by decide,
   (sessionStop_frame_and_multi_open_start dbStates "ses_1" "ses_2" 100 none
     ["t"] 200 (by decide)).2 "Work" none [] (by decide) (by decide)⟩

/-! ## Claim C6 -/

/-- **C6.** `parseRFC3339` accepts exactly the strings that match the
strict RFC3339 shape (standard `T` separator and an explicit UTC offset or
the `Z` designator) and whose field values denote a real date-time: every
accepted string matches the shape, every shape-matching string with valid
field values is accepted, and every other non-empty string is rejected with
the invalid-format message (in particular a string with the offset
omitted).  Every mutating operation (pause, resume, stop, start, add) given
such a rejected timestamp — alongside its other required arguments — fails
with `InvalidTimeFormat` for **every** store, so before any routine or
session lookup is attempted, and returns the store unchanged. -/
theorem parse_and_mutating_ops_reject_invalid_timestamp :
    (∀ s : String, parseRFC3339Ok s = true → rfc3339Shape s = true)
    ∧ (∀ (s : String) (p : DateTimeParts), parseParts s.data = some p →
        validParts p = true → parseRFC3339 s = .ok (toMillis p))
    ∧ (∀ s : String, s ≠ "" → rfc3339Shape s = false →
        parseRFC3339 s
          = .invalid "invalid RFC3339 format (must include timezone offset)")
    ∧ (∀ (db : DB) (sid ts : String), sid ≠ "" → ts ≠ "" →
        parseRFC3339Ok ts = false →
        sessionPause db (some sid) (some ts) = (db, .error .invalidTimeFormat)
        ∧ sessionResume db (some sid) (some ts) = (db, .error .invalidTimeFormat)
        ∧ ∀ (note? : Option String) (tagArgs : List String),
            sessionStop db (some sid) (some ts) note? tagArgs
              = (db, .error .invalidTimeFormat))
    ∧ (∀ (db : DB) (ident ts : String) (note? : Option String)
        (tagArgs : List String), ident ≠ "" → ts ≠ "" →
        parseRFC3339Ok ts = false →
        sessionStart db (some ident) (some ts) note? tagArgs
          = (db, .error .invalidTimeFormat))
    ∧ (∀ (db : DB) (name rule ts : String) (tz? : Option String)
        (systemTz : String), name ≠ "" → rule ≠ "" → ts ≠ "" →
        parseRFC3339Ok ts = false →
        routineAdd db (some name) (some rule) (some ts) tz? systemTz
          = (db, .error .invalidTimeFormat)) := by
  have hinv : ∀ ts : String, parseRFC3339Ok ts = false →
      ∃ m, parseRFC3339 ts = .invalid m := by
    intro ts h
    unfold parseRFC3339Ok at h
    cases hp : parseRFC3339 ts with
    | ok i => rw [hp] at h; simp at h
    | invalid m => exact ⟨m, rfl⟩
  have htr : ∀ s : String, s ≠ "" → truthy (some s) = some s := by
    intro s hs
    simp [truthy, hs]
  refine ⟨?_, ?_, ?_, ?_, ?_, ?_⟩
  · intro s h
    unfold parseRFC3339Ok parseRFC3339 at h
    by_cases hs : s = ""
    · simp [hs] at h
    · rw [if_neg hs] at h
      cases hp : parseParts s.data with
      | none => rw [hp] at h; simp at h
      | some p => simp [rfc3339Shape, hp]
  · intro s p hp hv
    have hs : s ≠ "" := by
      intro h
      subst h
      rw [show parseParts (("" : String).data) = none from rfl] at hp
      cases hp
    unfold parseRFC3339
    rw [if_neg hs, hp]
    simp [hv]
  · intro s hs hshape
    have hp : parseParts s.data = none := by
      unfold rfc3339Shape at hshape
      exact Option.not_isSome_iff_eq_none.mp (by simp [hshape])
    unfold parseRFC3339
    rw [if_neg hs, hp]
  · intro db sid ts hsid hts hbad
    rcases hinv ts hbad with ⟨m, hm⟩
    refine ⟨?_, ?_, ?_⟩
    · unfold sessionPause
      rw [htr sid hsid, htr ts hts]
      dsimp only
      rw [hm]
    · unfold sessionResume
      rw [htr sid hsid, htr ts hts]
      dsimp only
      rw [hm]
    · intro note? tagArgs
      unfold sessionStop
      rw [htr sid hsid, htr ts hts]
      dsimp only
      rw [hm]
  · intro db ident ts note? tagArgs hident hts hbad
    rcases hinv ts hbad with ⟨m, hm⟩
    unfold sessionStart
    rw [htr ident hident, htr ts hts]
    dsimp only
    rw [hm]
  · intro db name rule ts tz? systemTz hname hrule hts hbad
    rcases hinv ts hbad with ⟨m, hm⟩
    unfold routineAdd
    rw [htr name hname, htr rule hrule, htr ts hts]
    dsimp only
    rw [hm]

/-- Witness for C6 at concrete strings and stores: the offset-less
timestamp is rejected with the format error; the fully-qualified timestamp
parses; and pause, start and add called with rejected timestamps fail with
`InvalidTimeFormat` on the empty store — where no session or routine
exists, so no lookup error can have been reached — leaving it unchanged. -/
theorem parse_and_mutating_ops_reject_invalid_timestamp_witness :
    parseRFC3339 "2026-01-31T09:00:00"
      = .invalid "invalid RFC3339 format (must include timezone offset)"
    ∧ parseRFC3339 "2026-01-31T09:00:00+09:00"
      = .ok (toMillis ⟨2026, 1, 31, 9, 0, 0, 0, 540⟩)
    ∧ (sessionPause dbEmpty (some "ses_1") (some "2026-01-31T09:00:00")
        = (dbEmpty, .error .invalidTimeFormat)
      ∧ sessionResume dbEmpty (some "ses_1") (some "2026-01-31T09:00:00")
        = (dbEmpty, .error .invalidTimeFormat)
      ∧ ∀ (note? : Option String) (tagArgs : List String),
          sessionStop dbEmpty (some "ses_1") (some "2026-01-31T09:00:00") note? tagArgs
            = (dbEmpty, .error .invalidTimeFormat))
    ∧ sessionStart dbEmpty (some "Work") (some "2026-01-31 09:00:00+09:00") none []
      = (dbEmpty, .error .invalidTimeFormat)
    ∧ routineAdd dbEmpty (some "Work") (some "r") (some "2026-01-31T09:00:00")
        none "UTC"
      = (dbEmpty, .error .invalidTimeFormat) :=
  ⟨parse_and_mutating_ops_reject_invalid_timestamp.2.2.1 "2026-01-31T09:00:00"
     (by decide) (by decide),
   parse_and_mutating_ops_reject_invalid_timestamp.2.1 "2026-01-31T09:00:00+09:00"
     ⟨2026, 1, 31, 9, 0, 0, 0, 540⟩ (by decide) (by decide),
   parse_and_mutating_ops_reject_invalid_timestamp.2.2.2.1 dbEmpty "ses_1"
     "2026-01-31T09:00:00" (by decide) (by decide) (by decide),
   parse_and_mutating_ops_reject_invalid_timestamp.2.2.2.2.1 dbEmpty "Work"
     "2026-01-31 09:00:00+09:00" none [] (by decide) (by decide) (by decide),
   parse_and_mutating_ops_reject_invalid_timestamp.2.2.2.2.2 dbEmpty "Work" "r"
     "2026-01-31T09:00:00" none "UTC" (by decide) (by decide) (by decide) (by decide)⟩
